import Mathlib

/-!
Verification of the higher/lower card-game engine: a shallow embedding of
the card and deck models (`src/models/card.py`, `src/models/deck.py`), the
exact odds counter (`src/logic/observer.py`), the payout and prediction
logic of `src/logic/infinite_game.py`, and the side-mission state machine
(`src/logic/side_missions.py` together with the scheduling/offer/advance
code of `infinite_game.py`).  Python `float` arithmetic is modelled with
exact rationals, machine `int` with `Int`/`Nat`, and exceptions with
`Except`.
-/

namespace CardGame

/-- `Suit` enumeration from `models/card.py`: four suits plus the Joker
marker. -/
inductive Suit where
  | CLUBS
  | DIAMONDS
  | HEARTS
  | SPADES
  | JOKER
deriving DecidableEq, Repr

/-- `Rank` enumeration from `models/card.py`: numeric values, Ace-high,
with 0 reserved for the Joker. -/
inductive Rank where
  | JOKER
  | TWO
  | THREE
  | FOUR
  | FIVE
  | SIX
  | SEVEN
  | EIGHT
  | NINE
  | TEN
  | JACK
  | QUEEN
  | KING
  | ACE
deriving DecidableEq, Repr

/-- Numeric value of a rank, as declared by the `IntEnum` in
`models/card.py` (`JOKER = 0`, `TWO = 2`, ..., `ACE = 14`). -/
def Rank.val : Rank → Nat
  | .JOKER => 0
  | .TWO => 2
  | .THREE => 3
  | .FOUR => 4
  | .FIVE => 5
  | .SIX => 6
  | .SEVEN => 7
  | .EIGHT => 8
  | .NINE => 9
  | .TEN => 10
  | .JACK => 11
  | .QUEEN => 12
  | .KING => 13
  | .ACE => 14

/-- A frozen playing card (`models/card.py`, class `Card`). -/
structure Card where
  rank : Rank
  suit : Suit
deriving DecidableEq, Repr

/-- `Card.__eq__`: two cards compare equal exactly when their ranks are
equal (`IntEnum` members compare by numeric value). -/
def Card.eq (a b : Card) : Bool :=
  a.rank.val == b.rank.val

/-- `Card.__lt__`: rank-only strict comparison on the numeric values. -/
def Card.lt (a b : Card) : Bool :=
  a.rank.val < b.rank.val

/-- `Card.is_joker`: true when the rank is the Joker sentinel or the suit
is the Joker marker. -/
def Card.isJoker (c : Card) : Bool :=
  c.rank == Rank.JOKER || c.suit == Suit.JOKER

/-- `Rank.val` determines the rank: the `IntEnum` values are pairwise
distinct. -/
theorem Rank.val_injective : Function.Injective Rank.val := by
  intro a b h
  cases a <;> cases b <;> first | rfl | simp [Rank.val] at h

/-- `Deck.deal` from `models/deck.py`, with the deck list passed
explicitly: raises `DeckEmptyError` on an empty deck (leaving the card
list untouched), otherwise `pop()`s — removes and returns the last card.
The result pairs the dealt card (or the error) with the deck contents
after the call. -/
def Deck.deal (cards : List Card) : Except String Card × List Card :=
  if h : cards = [] then
    (.error "Cannot deal from an empty deck.", cards)
  else
    (.ok (cards.getLast h), cards.dropLast)

end CardGame

namespace CardGame

/-- The two predictions of `infinite_game.py` (`class Prediction`). -/
inductive Prediction where
  | HIGHER
  | LOWER
deriving DecidableEq, Repr

/-- `InfiniteGame._is_prediction_correct`: equal ranks always lose;
otherwise strict rank comparison in the direction of the prediction, and
an active reverse mission inverts that strict-comparison result. -/
def isPredictionCorrect (currentCard nextCard : Card) (prediction : Prediction)
    (reverse : Bool) : Bool :=
  if nextCard.rank.val == currentCard.rank.val then
    false
  else
    let correct :=
      if prediction = Prediction.HIGHER then
        decide (nextCard.rank.val > currentCard.rank.val)
      else
        decide (nextCard.rank.val < currentCard.rank.val)
    if reverse then !correct else correct

end CardGame

namespace CardGame

/-- C9: `Card` equality and ordering depend only on rank — `a == b` iff
the ranks are equal (so same-rank cards of different suits are equal) and
`a < b` iff `a`'s rank is below `b`'s. -/
theorem card_eq_lt_rank_only (a b : Card) :
    (Card.eq a b = true ↔ a.rank = b.rank) ∧
    (Card.lt a b = true ↔ a.rank.val < b.rank.val) := by
  constructor
  · simp only [Card.eq, beq_iff_eq]
    exact ⟨fun h => Rank.val_injective h, fun h => by rw [h]⟩
  · simp [Card.lt]

/-- C8: dealing from an empty deck reports the empty-deck error and leaves
the deck unchanged; dealing from a non-empty deck removes and returns the
last card and shrinks the deck by exactly one. -/
theorem deal_last_or_error (cards : List Card) :
    (cards = [] →
      Deck.deal cards = (.error "Cannot deal from an empty deck.", cards)) ∧
    (∀ h : cards ≠ [],
      Deck.deal cards = (.ok (cards.getLast h), cards.dropLast) ∧
      cards.dropLast.length = cards.length - 1) := by
  constructor
  · intro h
    simp [Deck.deal, h]
  · intro h
    refine ⟨by simp [Deck.deal, h], ?_⟩
    exact List.length_dropLast cards

/-- Witness for C8 at the empty deck and at a concrete one-card deck. -/
theorem deal_last_or_error_witness :
    Deck.deal [] = (.error "Cannot deal from an empty deck.", ([] : List Card)) ∧
    Deck.deal [Card.mk Rank.ACE Suit.SPADES] =
      (.ok (Card.mk Rank.ACE Suit.SPADES), []) :=
  ⟨(deal_last_or_error []).1 rfl,
   ((deal_last_or_error [Card.mk Rank.ACE Suit.SPADES]).2 (by decide)).1⟩

/-- C2: prediction scoring — equal ranks always lose, for both
predictions and both reverse settings; differing ranks are scored by the
strict comparison matching the prediction, inverted when the reverse
modifier is active (so the equal-rank loss is never inverted). -/
theorem prediction_correct_rule (cur next : Card) (p : Prediction) (rev : Bool) :
    isPredictionCorrect cur next p rev =
      if next.rank = cur.rank then false
      else
        let strict :=
          match p with
          | Prediction.HIGHER => decide (cur.rank.val < next.rank.val)
          | Prediction.LOWER => decide (next.rank.val < cur.rank.val)
        if rev then !strict else strict := by
  by_cases h : next.rank = cur.rank
  · simp [isPredictionCorrect, h]
  · have hv : next.rank.val ≠ cur.rank.val := fun e => h (Rank.val_injective e)
    cases p <;> simp [isPredictionCorrect, h, hv]

/-- C10: with differing ranks and a fixed reverse flag, exactly one of the
two predictions is scored correct — the HIGHER score is the boolean
negation of the LOWER score. -/
theorem prediction_correct_complementary (cur next : Card) (rev : Bool)
    (h : next.rank.val ≠ cur.rank.val) :
    isPredictionCorrect cur next Prediction.HIGHER rev =
      !isPredictionCorrect cur next Prediction.LOWER rev := by
  unfold isPredictionCorrect
  have hbeq : (next.rank.val == cur.rank.val) = false := by
    simpa using h
  rw [hbeq]
  simp only [Bool.if_false_left, reduceIte]
  rcases Nat.lt_trichotomy next.rank.val cur.rank.val with hlt | heq | hgt
  · cases rev <;> simp [hlt, Nat.not_lt.mpr (Nat.le_of_lt hlt), Nat.ne_of_lt hlt]
  · exact absurd heq h
  · cases rev <;> simp [hgt, Nat.not_lt.mpr (Nat.le_of_lt hgt), Nat.ne_of_gt hgt]

/-- Witness for C10 at a concrete pair of differing-rank cards. -/
theorem prediction_correct_complementary_witness :
    isPredictionCorrect (Card.mk Rank.FIVE Suit.CLUBS) (Card.mk Rank.NINE Suit.HEARTS)
        Prediction.HIGHER false =
      !isPredictionCorrect (Card.mk Rank.FIVE Suit.CLUBS) (Card.mk Rank.NINE Suit.HEARTS)
        Prediction.LOWER false :=
  prediction_correct_complementary (Card.mk Rank.FIVE Suit.CLUBS)
    (Card.mk Rank.NINE Suit.HEARTS) false (by decide)

end CardGame

namespace CardGame

/-- `WinOdds` dataclass from `logic/observer.py`; the `float`
probabilities are modelled as exact rationals. -/
structure WinOdds where
  higher : ℚ
  lower : ℚ
  joker : ℚ
deriving DecidableEq, Repr

/-- State of `AICardCounter` (`logic/observer.py`): per-rank counts over
the non-joker remaining cards, the joker count, and the total number of
remaining cards. -/
structure AICardCounter where
  rankCounts : Rank → Nat
  jokerCount : Nat
  total : Nat

/-- `AICardCounter.on_deck_updated`: overwrite all counts from the
broadcast snapshot.  The `Counter` over `card.rank for card in remaining
if not card.is_joker` assigns each rank the number of non-joker cards
bearing it. -/
def onDeckUpdated (remaining : List Card) : AICardCounter where
  rankCounts := fun r =>
    (remaining.filter (fun c => !c.isJoker && c.rank == r)).length
  jokerCount := (remaining.filter (fun c => c.isJoker)).length
  total := remaining.length

/-- The members of the `Rank` enumeration in declaration order.
`Counter.items()` iterates over the ranks actually present; summing over
all ranks instead only adds zero terms for the absent ones. -/
def allRanks : List Rank :=
  [.JOKER, .TWO, .THREE, .FOUR, .FIVE, .SIX, .SEVEN, .EIGHT, .NINE, .TEN,
   .JACK, .QUEEN, .KING, .ACE]

/-- Sum of the per-rank counts over the ranks satisfying `p`, mirroring
the generator-sum over `Counter.items()` in `win_odds`. -/
def sumCounts (cnt : Rank → Nat) (p : Rank → Bool) : List Rank → Nat
  | [] => 0
  | r :: rs => (if p r then cnt r else 0) + sumCounts cnt p rs

/-- `AICardCounter.win_odds`: all-zero odds when no cards remain or the
current card is a joker; otherwise counts of strictly-higher and
strictly-lower ranks divided by the total, with the joker probability
added to both directions. -/
def winOdds (st : AICardCounter) (currentCard : Card) : WinOdds :=
  if st.total == 0 || currentCard.isJoker then
    ⟨0, 0, 0⟩
  else
    let higherCount :=
      sumCounts st.rankCounts (fun r => decide (currentCard.rank.val < r.val)) allRanks
    let lowerCount :=
      sumCounts st.rankCounts (fun r => decide (r.val < currentCard.rank.val)) allRanks
    let jokerProb : ℚ := if st.total ≠ 0 then (st.jokerCount : ℚ) / st.total else 0
    let higherProb : ℚ := (higherCount : ℚ) / st.total + jokerProb
    let lowerProb : ℚ := (lowerCount : ℚ) / st.total + jokerProb
    ⟨higherProb, lowerProb, jokerProb⟩

/-- Adding one card to the snapshot raises the rank count of its own rank
by one when it is not a joker, and changes nothing else. -/
theorem rankCounts_cons (c : Card) (snap : List Card) (r : Rank) :
    (onDeckUpdated (c :: snap)).rankCounts r =
      (if !c.isJoker && c.rank == r then 1 else 0) +
        (onDeckUpdated snap).rankCounts r := by
  simp only [onDeckUpdated, List.filter_cons]
  split <;> simp [Nat.add_comm]

/-- Effect of one extra snapshot card on a rank-count sum: the card
contributes its multiplicity in the rank list when it is not a joker and
its rank satisfies the predicate. -/
theorem sumCounts_cons (c : Card) (snap : List Card) (p : Rank → Bool)
    (L : List Rank) :
    sumCounts (onDeckUpdated (c :: snap)).rankCounts p L =
      sumCounts (onDeckUpdated snap).rankCounts p L +
        (if !c.isJoker && p c.rank then L.count c.rank else 0) := by
  induction L with
  | nil => simp [sumCounts]
  | cons r rs ih =>
    simp only [sumCounts, ih, rankCounts_cons, List.count_cons]
    cases hj : c.isJoker with
    | true => simp [hj]
    | false =>
      by_cases hr : c.rank = r
      · subst hr
        by_cases hp : p c.rank = true
        · simp [hj, hp]
          omega
        · simp [hj, hp]
      · have hr' : ¬(r = c.rank) := fun e => hr e.symm
        by_cases hp : p r = true <;> by_cases hp' : p c.rank = true <;>
          simp [hj, hr, hr', hp, hp'] <;> omega

/-- The counter's total after an update is the snapshot size. -/
theorem onDeckUpdated_total (snap : List Card) :
    (onDeckUpdated snap).total = snap.length := rfl

/-- The counter's joker count after an update is the number of joker
cards in the snapshot. -/
theorem onDeckUpdated_jokerCount (snap : List Card) :
    (onDeckUpdated snap).jokerCount = (snap.filter (fun c => c.isJoker)).length := rfl

/-- Every rank occurs exactly once in the rank enumeration. -/
theorem count_allRanks (r : Rank) : allRanks.count r = 1 := by
  cases r <;> decide

/-- The generator-sum over `Counter.items()` equals a direct count of the
snapshot cards: summing the per-rank counts over the ranks satisfying `p`
counts the non-joker snapshot cards whose rank satisfies `p`. -/
theorem sumCounts_eq_filter_length (snap : List Card) (p : Rank → Bool) :
    sumCounts (onDeckUpdated snap).rankCounts p allRanks =
      (snap.filter (fun c => !c.isJoker && p c.rank)).length := by
  induction snap with
  | nil =>
    simp [allRanks, sumCounts, onDeckUpdated]
  | cons c snap ih =>
    rw [sumCounts_cons, ih, List.filter_cons]
    by_cases hc : (!c.isJoker && p c.rank) = true
    · simp [hc, count_allRanks, Nat.add_comm]
    · simp [hc]

/-- Shared description of `win_odds` after an `on_deck_updated` with a
given snapshot: all-zero odds on the empty snapshot or a joker current
card; otherwise each probability is a card count over the snapshot size,
with the joker mass added to both the higher and the lower call. -/
theorem winOdds_eq (snap : List Card) (cur : Card) :
    winOdds (onDeckUpdated snap) cur =
      if snap = [] ∨ cur.isJoker = true then ⟨0, 0, 0⟩
      else
        ⟨((snap.filter fun c => !c.isJoker && decide (cur.rank.val < c.rank.val)).length : ℚ)
            / snap.length
          + ((snap.filter fun c => c.isJoker).length : ℚ) / snap.length,
         ((snap.filter fun c => !c.isJoker && decide (c.rank.val < cur.rank.val)).length : ℚ)
            / snap.length
          + ((snap.filter fun c => c.isJoker).length : ℚ) / snap.length,
         ((snap.filter fun c => c.isJoker).length : ℚ) / snap.length⟩ := by
  by_cases h0 : snap = []
  · simp [winOdds, onDeckUpdated, h0]
  · have hlen : snap.length ≠ 0 := by simpa [List.length_eq_zero] using h0
    by_cases hj : cur.isJoker = true
    · simp [winOdds, onDeckUpdated, h0, hj, hlen]
    · have hjf : cur.isJoker = false := by simpa using hj
      have hcond : (((onDeckUpdated snap).total == 0) || cur.isJoker) = false := by
        simp [onDeckUpdated_total, hlen, hjf]
      rw [winOdds, hcond, if_neg Bool.false_ne_true]
      simp only [sumCounts_eq_filter_length, onDeckUpdated_total,
        onDeckUpdated_jokerCount]
      rw [if_pos hlen]
      rw [if_neg (show ¬(snap = [] ∨ cur.isJoker = true) by simp [h0, hjf])]

end CardGame

namespace CardGame

/-- C1: `win_odds` returns all-zero odds when the broadcast snapshot is
empty or the current card is a joker; otherwise it returns the counts of
non-joker remaining cards of strictly greater / strictly smaller rank
divided by the snapshot size, each with the joker mass added, and the
joker mass alone as the joker probability. -/
theorem win_odds_formula (snap : List Card) (cur : Card) :
    winOdds (onDeckUpdated snap) cur =
      if snap = [] ∨ cur.isJoker = true then ⟨0, 0, 0⟩
      else
        ⟨((snap.filter fun c => !c.isJoker && decide (cur.rank.val < c.rank.val)).length : ℚ)
            / snap.length
          + ((snap.filter fun c => c.isJoker).length : ℚ) / snap.length,
         ((snap.filter fun c => !c.isJoker && decide (c.rank.val < cur.rank.val)).length : ℚ)
            / snap.length
          + ((snap.filter fun c => c.isJoker).length : ℚ) / snap.length,
         ((snap.filter fun c => c.isJoker).length : ℚ) / snap.length⟩ :=
  winOdds_eq snap cur

/-- A snapshot card can satisfy at most one of: non-joker of higher rank,
non-joker of lower rank, joker — so the three counts together never
exceed the snapshot size. -/
theorem filter_length_three_bound (snap : List Card) (cur : Card) :
    (snap.filter fun c => !c.isJoker && decide (cur.rank.val < c.rank.val)).length
      + (snap.filter fun c => !c.isJoker && decide (c.rank.val < cur.rank.val)).length
      + (snap.filter fun c => c.isJoker).length ≤ snap.length := by
  induction snap with
  | nil => simp
  | cons c l ih =>
    simp only [List.filter_cons]
    by_cases hj : c.isJoker = true
    · simp [hj]
      omega
    · have hjf : c.isJoker = false := by simpa using hj
      by_cases h1 : cur.rank.val < c.rank.val
      · have h2 : ¬(c.rank.val < cur.rank.val) := by omega
        simp [hjf, h1, h2]
        omega
      · by_cases h2 : c.rank.val < cur.rank.val
        · simp [hjf, h1, h2]
          omega
        · simp [hjf, h1, h2]
          omega

/-- Bounding the combined probability mass once the three counts fit in
the total. -/
theorem mass_div_bound (a b j t : ℕ) (ht : 0 < t) (hsum : a + b + j ≤ t) :
    ((a : ℚ) / t + (j : ℚ) / t) + ((b : ℚ) / t + (j : ℚ) / t) - (j : ℚ) / t ≤ 1 := by
  have ht' : (0 : ℚ) < t := by exact_mod_cast ht
  have hrw : ((a : ℚ) / t + (j : ℚ) / t) + ((b : ℚ) / t + (j : ℚ) / t) - (j : ℚ) / t
      = (((a + b + j : ℕ) : ℚ)) / t := by
    push_cast
    ring
  rw [hrw, div_le_one ht']
  exact_mod_cast hsum

/-- C6 fails as stated: with only a joker remaining and a non-joker
current card, all three probabilities are 1 and their sum is 3. -/
theorem win_odds_mass_counterexample :
    ¬ ((winOdds (onDeckUpdated [Card.mk Rank.JOKER Suit.JOKER]) (Card.mk Rank.FIVE Suit.CLUBS)).higher
        + (winOdds (onDeckUpdated [Card.mk Rank.JOKER Suit.JOKER]) (Card.mk Rank.FIVE Suit.CLUBS)).lower
        + (winOdds (onDeckUpdated [Card.mk Rank.JOKER Suit.JOKER]) (Card.mk Rank.FIVE Suit.CLUBS)).joker
        ≤ 1) := by
  have h := winOdds_eq [Card.mk Rank.JOKER Suit.JOKER] (Card.mk Rank.FIVE Suit.CLUBS)
  rw [if_neg (by decide)] at h
  rw [h]
  norm_num [List.filter_cons, Card.isJoker, Rank.val]

/-- C6 as amended: the joker mass is added to both directional
probabilities, so the correct bound counts it once —
`higher + lower - joker ≤ 1` for every snapshot and current card. -/
theorem win_odds_mass_bound (snap : List Card) (cur : Card) :
    (winOdds (onDeckUpdated snap) cur).higher
      + (winOdds (onDeckUpdated snap) cur).lower
      - (winOdds (onDeckUpdated snap) cur).joker ≤ 1 := by
  have hspec := winOdds_eq snap cur
  by_cases h : snap = [] ∨ cur.isJoker = true
  · rw [if_pos h] at hspec
    rw [hspec]
    norm_num
  · rw [if_neg h] at hspec
    rw [hspec]
    have hne : snap ≠ [] := fun e => h (Or.inl e)
    exact mass_div_bound _ _ _ _ (List.length_pos.mpr hne)
      (filter_length_three_bound snap cur)

end CardGame

namespace CardGame

/-- Python's `round` (banker's rounding, round-half-to-even) on an exact
rational, as used by `int(round(stake * multiplier))`. -/
def pyRound (q : ℚ) : ℤ :=
  let f := ⌊q⌋
  let r := q - f
  if r < 1 / 2 then f
  else if 1 / 2 < r then f + 1
  else if f % 2 = 0 then f else f + 1

/-- `InfiniteGame._HOUSE_EDGE` constant. -/
def HOUSE_EDGE : ℚ := 6 / 100

/-- `InfiniteGame._calculate_payout`: no payout for a non-positive
probability, otherwise the stake times the fair multiplier reduced by the
house edge and scaled by the odds-upgrade multiplier, rounded, and never
below the stake. -/
def calculatePayout (stake : ℤ) (probability : ℚ) (oddsMultiplier : ℚ) : Option ℤ :=
  if probability ≤ 0 then none
  else
    let multiplier := (1 / probability) * (1 - HOUSE_EDGE) * oddsMultiplier
    let payout := pyRound ((stake : ℚ) * multiplier)
    some (max stake payout)

/-- C3: the payout calculation returns `none` exactly when the probability
is non-positive; otherwise it is `max stake (round (stake × (1/p) ×
(1 − 0.06) × oddsMultiplier))`, so every offered payout is at least the
stake itself. -/
theorem calculate_payout_spec (stake : ℤ) (p m : ℚ) :
    (calculatePayout stake p m = none ↔ p ≤ 0) ∧
    (0 < p → calculatePayout stake p m =
        some (max stake (pyRound ((stake : ℚ) * ((1 / p) * (1 - 6 / 100) * m))))) ∧
    (∀ v, calculatePayout stake p m = some v → stake ≤ v) := by
  refine ⟨?_, ?_, ?_⟩
  · unfold calculatePayout
    split
    · simpa
    · simp_all [not_le]
  · intro hp
    have hnp : ¬(p ≤ 0) := not_le.mpr hp
    simp [calculatePayout, hnp, HOUSE_EDGE]
  · intro v hv
    unfold calculatePayout at hv
    split at hv
    · exact absurd hv (by simp)
    · have : v = max stake (pyRound ((stake : ℚ) * ((1 / p) * (1 - HOUSE_EDGE) * m))) := by
        simpa using hv.symm
      rw [this]
      exact le_max_left _ _

/-- Witness for C3 at stake 100, probability 9/10, multiplier 1. -/
theorem calculate_payout_spec_witness :
    (0 : ℚ) < 9 / 10 ∧
    calculatePayout 100 (9 / 10) 1 =
      some (max 100 (pyRound ((100 : ℚ) * ((1 / (9 / 10)) * (1 - 6 / 100) * 1)))) :=
  ⟨by norm_num, (calculate_payout_spec 100 (9 / 10) 1).2.1 (by norm_num)⟩

end CardGame

namespace CardGame

/-- `SideMissionType` enumeration from `logic/side_missions.py`. -/
inductive SideMissionType where
  | DOUBLE_OR_NOTHING
  | BIG_MONEY
  | LUCKY_SEVEN
  | GONE_BLIND
  | REVERSE_PSYCHOLOGY
deriving DecidableEq, Repr

/-- `SideMissionDefinition` dataclass: immutable side-mission template. -/
structure SideMissionDefinition where
  kind : SideMissionType
  title : String
  description : List String
  rounds : Nat := 0
  winsRequired : Nat := 0
  bonusMultiplier : Int := 1
  reverseLogic : Bool := false
  blindRounds : Nat := 0
  skipPenaltyRatio : Option ℚ := none
deriving DecidableEq, Repr

/-- `SideMissionState` dataclass: mutable progress of an accepted
mission. -/
structure SideMissionState where
  definition : SideMissionDefinition
  roundsLeft : Int
  winsInRow : Nat := 0
  active : Bool := true
  completed : Bool := false
  failed : Bool := false
deriving DecidableEq, Repr

/-- `SideMissionState.is_blind`. -/
def SideMissionState.isBlind (m : SideMissionState) : Bool :=
  decide (0 < m.definition.blindRounds) && decide (0 < m.roundsLeft)

/-- `SideMissionState.is_reverse`. -/
def SideMissionState.isReverse (m : SideMissionState) : Bool :=
  m.definition.reverseLogic && decide (0 < m.roundsLeft)

/-- First catalog entry of `SideMissionManager._DEFINITIONS`. -/
def doubleOrNothingDef : SideMissionDefinition where
  kind := .DOUBLE_OR_NOTHING
  title := "DOUBLE OR NOTHING"
  description := ["Win 3 rounds in a row to double your balance.",
                  "Fail and you just carry on as normal."]
  winsRequired := 3

/-- Second catalog entry of `SideMissionManager._DEFINITIONS`. -/
def bigMoneyDef : SideMissionDefinition where
  kind := .BIG_MONEY
  title := "BIG MONEY"
  description := ["Your next win pays 5x."]
  rounds := 1
  bonusMultiplier := 5

/-- Third catalog entry of `SideMissionManager._DEFINITIONS`. -/
def luckySevenDef : SideMissionDefinition where
  kind := .LUCKY_SEVEN
  title := "LUCKY SEVEN"
  description := ["Next 7 rounds pay triple.",
                  "First loss ends the bonus early."]
  rounds := 7
  bonusMultiplier := 3

/-- Fourth catalog entry of `SideMissionManager._DEFINITIONS`. -/
def goneBlindDef : SideMissionDefinition where
  kind := .GONE_BLIND
  title := "GONE BLIND"
  description := ["Next 3 rounds you play blind.",
                  "Pay 10% of balance to skip."]
  rounds := 3
  blindRounds := 3
  skipPenaltyRatio := some (10 / 100)

/-- Fifth catalog entry of `SideMissionManager._DEFINITIONS`. -/
def reversePsychologyDef : SideMissionDefinition where
  kind := .REVERSE_PSYCHOLOGY
  title := "REVERSE PSYCHOLOGY"
  description := ["Next 3 rounds you must guess wrong to win.",
                  "Equal still loses."]
  rounds := 3
  reverseLogic := true

/-- The fixed catalog `SideMissionManager._DEFINITIONS` (5 kinds);
`random_definition()` draws from this list. -/
def missionDefinitions : List SideMissionDefinition :=
  [doubleOrNothingDef, bigMoneyDef, luckySevenDef, goneBlindDef,
   reversePsychologyDef]

/-- `SideMissionManager.start`: `rounds = definition.rounds or
definition.wins_required` (Python `or` picks the first non-zero), then a
fresh state with that many rounds left. -/
def startMission (definition : SideMissionDefinition) : SideMissionState :=
  { definition := definition
    roundsLeft :=
      if definition.rounds ≠ 0 then (definition.rounds : Int)
      else (definition.winsRequired : Int)
    winsInRow := 0
    active := true
    completed := false
    failed := false }

/-- `InfiniteGame._update_side_mission_after_round`, inner per-kind
dispatch: returns the mutated mission state together with a flag telling
whether `_double_balance_reward` fired. -/
def updateMissionCore (mission : SideMissionState) (win : Bool) :
    SideMissionState × Bool :=
  match mission.definition.kind with
  | .DOUBLE_OR_NOTHING =>
    if win then
      let m := { mission with winsInRow := mission.winsInRow + 1 }
      if m.winsInRow ≥ mission.definition.winsRequired then
        ({ m with completed := true, active := false }, true)
      else
        (m, false)
    else
      ({ mission with failed := true, active := false }, false)
  | .BIG_MONEY =>
    if win then
      ({ mission with completed := true, active := false }, false)
    else
      ({ mission with failed := true, active := false }, false)
  | .LUCKY_SEVEN =>
    if win then
      let m := { mission with roundsLeft := mission.roundsLeft - 1 }
      if m.roundsLeft ≤ 0 then
        ({ m with completed := true, active := false }, false)
      else
        (m, false)
    else
      ({ mission with failed := true, active := false }, false)
  | .GONE_BLIND =>
    let m := { mission with roundsLeft := mission.roundsLeft - 1 }
    if m.roundsLeft ≤ 0 then
      ({ m with completed := true, active := false }, false)
    else
      (m, false)
  | .REVERSE_PSYCHOLOGY =>
    if win then
      let m := { mission with roundsLeft := mission.roundsLeft - 1 }
      if m.roundsLeft ≤ 0 then
        ({ m with completed := true, active := false }, false)
      else
        (m, false)
    else
      ({ mission with failed := true, active := false }, false)

/-- `InfiniteGame._update_side_mission_after_round` as a whole: advance
the active slot after a resolved round, double the balance when
double-or-nothing completes, and clear the slot (`_active_side_mission =
None`) as soon as the mission is no longer active. -/
def updateSideMissionAfterRound (slot : Option SideMissionState)
    (balance : Int) (win : Bool) : Option SideMissionState × Int :=
  match slot with
  | none => (none, balance)
  | some mission =>
    let result := updateMissionCore mission win
    let newBalance := if result.2 then balance * 2 else balance
    (if result.1.active then some result.1 else none, newBalance)

end CardGame

namespace CardGame

/-- C4: after each resolved round, one advancement step of the active
side mission follows the per-kind table — double-or-nothing counts
consecutive wins and doubles the balance at 3, completing, while any loss
fails it; big-money completes on a win and fails on a loss; lucky-seven
counts down on wins (completing at zero) and fails on the first loss;
gone-blind counts down on both outcomes and never fails; reverse-
psychology counts down on wins and fails on a loss; and any terminal
(completed or failed, hence inactive) mission is cleared from the active
slot. -/
theorem side_mission_advancement (m : SideMissionState) (win : Bool) (bal : Int)
    (hact : m.active = true) (hcomp : m.completed = false)
    (hfail : m.failed = false) :
    (m.definition = doubleOrNothingDef →
      updateSideMissionAfterRound (some m) bal win =
        (if win then
          if 3 ≤ m.winsInRow + 1 then (none, bal * 2)
          else (some { m with winsInRow := m.winsInRow + 1 }, bal)
         else (none, bal)) ∧
      (win = true → 3 ≤ m.winsInRow + 1 →
        (updateMissionCore m win).1.completed = true) ∧
      (win = false → (updateMissionCore m win).1.failed = true)) ∧
    (m.definition = bigMoneyDef →
      updateSideMissionAfterRound (some m) bal win = (none, bal) ∧
      (updateMissionCore m win).1.completed = win ∧
      (updateMissionCore m win).1.failed = !win) ∧
    (m.definition = luckySevenDef →
      updateSideMissionAfterRound (some m) bal win =
        ((if win then
            if m.roundsLeft - 1 ≤ 0 then none
            else some { m with roundsLeft := m.roundsLeft - 1 }
          else none), bal) ∧
      (win = true → m.roundsLeft - 1 ≤ 0 →
        (updateMissionCore m win).1.completed = true) ∧
      (win = false → (updateMissionCore m win).1.failed = true)) ∧
    (m.definition = goneBlindDef →
      updateSideMissionAfterRound (some m) bal win =
        ((if m.roundsLeft - 1 ≤ 0 then none
          else some { m with roundsLeft := m.roundsLeft - 1 }), bal) ∧
      (updateMissionCore m win).1.failed = false ∧
      (m.roundsLeft - 1 ≤ 0 → (updateMissionCore m win).1.completed = true)) ∧
    (m.definition = reversePsychologyDef →
      updateSideMissionAfterRound (some m) bal win =
        ((if win then
            if m.roundsLeft - 1 ≤ 0 then none
            else some { m with roundsLeft := m.roundsLeft - 1 }
          else none), bal) ∧
      (win = true → m.roundsLeft - 1 ≤ 0 →
        (updateMissionCore m win).1.completed = true) ∧
      (win = false → (updateMissionCore m win).1.failed = true)) ∧
    ((updateMissionCore m win).1.active = false →
      (updateSideMissionAfterRound (some m) bal win).1 = none) := by
  refine ⟨?_, ?_, ?_, ?_, ?_, ?_⟩
  · intro hdef
    refine ⟨?_, ?_, ?_⟩
    · cases win
      · simp [updateSideMissionAfterRound, updateMissionCore, hdef,
          doubleOrNothingDef]
      · by_cases h3 : 3 ≤ m.winsInRow + 1 <;>
          simp [updateSideMissionAfterRound, updateMissionCore, hdef,
            doubleOrNothingDef, h3, hact]
    · intro hw h3
      subst hw
      simp [updateMissionCore, hdef, doubleOrNothingDef, h3]
    · intro hw
      subst hw
      simp [updateMissionCore, hdef, doubleOrNothingDef]
  · intro hdef
    refine ⟨?_, ?_, ?_⟩ <;>
      cases win <;>
        simp [updateSideMissionAfterRound, updateMissionCore, hdef,
          bigMoneyDef, hcomp, hfail]
  · intro hdef
    refine ⟨?_, ?_, ?_⟩
    · cases win
      · simp [updateSideMissionAfterRound, updateMissionCore, hdef,
          luckySevenDef]
      · by_cases h0 : m.roundsLeft - 1 ≤ 0 <;>
          simp [updateSideMissionAfterRound, updateMissionCore, hdef,
            luckySevenDef, h0, hact]
    · intro hw h0
      subst hw
      simp [updateMissionCore, hdef, luckySevenDef, h0]
    · intro hw
      subst hw
      simp [updateMissionCore, hdef, luckySevenDef]
  · intro hdef
    refine ⟨?_, ?_, ?_⟩
    · by_cases h0 : m.roundsLeft - 1 ≤ 0 <;>
        simp [updateSideMissionAfterRound, updateMissionCore, hdef,
          goneBlindDef, h0, hact]
    · by_cases h0 : m.roundsLeft - 1 ≤ 0 <;>
        simp [updateMissionCore, hdef, goneBlindDef, h0, hfail]
    · intro h0
      simp [updateMissionCore, hdef, goneBlindDef, h0]
  · intro hdef
    refine ⟨?_, ?_, ?_⟩
    · cases win
      · simp [updateSideMissionAfterRound, updateMissionCore, hdef,
          reversePsychologyDef]
      · by_cases h0 : m.roundsLeft - 1 ≤ 0 <;>
          simp [updateSideMissionAfterRound, updateMissionCore, hdef,
            reversePsychologyDef, h0, hact]
    · intro hw h0
      subst hw
      simp [updateMissionCore, hdef, reversePsychologyDef, h0]
    · intro hw
      subst hw
      simp [updateMissionCore, hdef, reversePsychologyDef]
  · intro hinact
    simp [updateSideMissionAfterRound, hinact]

/-- Witness for C4: a freshly started big-money mission resolved with a
win completes and is cleared from the slot, leaving the balance alone. -/
theorem side_mission_advancement_witness :
    updateSideMissionAfterRound (some (startMission bigMoneyDef)) 100 true =
      (none, 100) :=
  (((side_mission_advancement (startMission bigMoneyDef) true 100 rfl rfl rfl).2.1)
    rfl).1

end CardGame

namespace CardGame

/-- The side-mission-relevant slice of `InfiniteGame`'s state:
`_rounds_completed`, `_pending_side_mission`, `_active_side_mission` and
the session's `side_missions_enabled` toggle. -/
structure MissionSchedState where
  roundsCompleted : Nat
  pendingSideMission : Option SideMissionDefinition
  activeSideMission : Option SideMissionState
  sideMissionsEnabled : Bool

/-- `InfiniteGame._SIDE_MISSION_INTERVAL`. -/
def SIDE_MISSION_INTERVAL : Nat := 15

/-- `InfiniteGame._maybe_schedule_side_mission`, with the catalog draw of
`random_definition()` passed in explicitly: queue a pending mission only
when the feature is enabled, no mission is pending or active, and the
completed-round count is a positive multiple of the interval. -/
def maybeScheduleSideMission (s : MissionSchedState)
    (choice : SideMissionDefinition) : MissionSchedState :=
  if !s.sideMissionsEnabled then s
  else if s.activeSideMission.isSome || s.pendingSideMission.isSome then s
  else if s.roundsCompleted == 0 then s
  else if s.roundsCompleted % SIDE_MISSION_INTERVAL != 0 then s
  else { s with pendingSideMission := some choice }

/-- The active-slot component of `_update_side_mission_after_round` (the
balance plays no role in scheduling). -/
def slotAfterRound (slot : Option SideMissionState) (win : Bool) :
    Option SideMissionState :=
  (updateSideMissionAfterRound slot 0 win).1

/-- One observable step of the dealing loop as far as side-mission state
is concerned: offering a pending mission (`_offer_side_mission` — accept,
skip, or discard when the feature was disabled meanwhile), resolving a
round (`_update_side_mission_after_round` followed by `_after_round`,
which increments the round counter and calls
`_maybe_schedule_side_mission`), or toggling the settings flag. -/
inductive MissionStep : MissionSchedState → MissionSchedState → Prop where
  | offerAccept (s : MissionSchedState) (d : SideMissionDefinition)
      (hpend : s.pendingSideMission = some d)
      (hact : s.activeSideMission = none)
      (hen : s.sideMissionsEnabled = true) :
      MissionStep s
        { s with pendingSideMission := none,
                 activeSideMission := some (startMission d) }
  | offerSkip (s : MissionSchedState) (d : SideMissionDefinition)
      (hpend : s.pendingSideMission = some d)
      (hact : s.activeSideMission = none)
      (hen : s.sideMissionsEnabled = true) :
      MissionStep s { s with pendingSideMission := none }
  | offerDisabled (s : MissionSchedState) (d : SideMissionDefinition)
      (hpend : s.pendingSideMission = some d)
      (hact : s.activeSideMission = none)
      (hdis : s.sideMissionsEnabled = false) :
      MissionStep s { s with pendingSideMission := none }
  | roundResolved (s : MissionSchedState) (win : Bool)
      (choice : SideMissionDefinition) :
      MissionStep s
        (maybeScheduleSideMission
          { s with roundsCompleted := s.roundsCompleted + 1,
                   activeSideMission := slotAfterRound s.activeSideMission win }
          choice)
  | toggleEnabled (s : MissionSchedState) (b : Bool) :
      MissionStep s { s with sideMissionsEnabled := b }

/-- States reachable by the scheduling/offer/round step relation from a
fresh game (no pending, no active mission, zero rounds). -/
inductive MissionReachable : MissionSchedState → Prop where
  | init (enabled : Bool) : MissionReachable ⟨0, none, none, enabled⟩
  | step {s t : MissionSchedState} (hs : MissionReachable s)
      (hst : MissionStep s t) : MissionReachable t

/-- Scheduling preserves the at-most-one-mission invariant: it only sets
a pending mission when the active slot is empty. -/
theorem maybeSchedule_inv (s : MissionSchedState)
    (choice : SideMissionDefinition)
    (h : s.pendingSideMission = none ∨ s.activeSideMission = none) :
    (maybeScheduleSideMission s choice).pendingSideMission = none ∨
      (maybeScheduleSideMission s choice).activeSideMission = none := by
  unfold maybeScheduleSideMission
  split
  · exact h
  · split
    · exact h
    · split
      · exact h
      · split
        · exact h
        · rename_i h1 h2 h3 h4
          right
          cases ha : s.activeSideMission with
          | none => simpa using ha
          | some a => exact absurd (by simp [ha]) h2

/-- C5: in every reachable state at most one side mission is pending or
active, and `_maybe_schedule_side_mission` queues a new pending mission
only when the feature is enabled, nothing is pending or active, and the
completed-round count is a positive multiple of 15. -/
theorem side_mission_exclusivity :
    (∀ s, MissionReachable s →
      s.pendingSideMission = none ∨ s.activeSideMission = none) ∧
    (∀ (s : MissionSchedState) (choice : SideMissionDefinition),
      (maybeScheduleSideMission s choice).pendingSideMission ≠
          s.pendingSideMission →
        s.sideMissionsEnabled = true ∧ s.pendingSideMission = none ∧
          s.activeSideMission = none ∧ 0 < s.roundsCompleted ∧
          s.roundsCompleted % 15 = 0) := by
  constructor
  · intro s h
    induction h with
    | init enabled => exact Or.inl rfl
    | step hs hst ih =>
      cases hst with
      | offerAccept d hpend hact hen => exact Or.inl rfl
      | offerSkip d hpend hact hen => exact Or.inl rfl
      | offerDisabled d hpend hact hdis => exact Or.inl rfl
      | roundResolved win choice =>
        apply maybeSchedule_inv
        rcases ih with hp | ha
        · exact Or.inl hp
        · right
          show slotAfterRound _ win = none
          rw [ha]
          rfl
      | toggleEnabled b => exact ih
  · intro s choice hneq
    unfold maybeScheduleSideMission at hneq
    split at hneq
    · exact absurd rfl hneq
    · split at hneq
      · exact absurd rfl hneq
      · split at hneq
        · exact absurd rfl hneq
        · split at hneq
          · exact absurd rfl hneq
          · rename_i h1 h2 h3 h4
            have hen : s.sideMissionsEnabled = true := by
              simpa using h1
            have hopts : ¬(s.activeSideMission.isSome = true ∨
                s.pendingSideMission.isSome = true) := by
              simpa using h2
            have hact : s.activeSideMission = none := by
              cases ha : s.activeSideMission with
              | none => rfl
              | some a => exact absurd (Or.inl (by simp [ha])) hopts
            have hpend : s.pendingSideMission = none := by
              cases hp : s.pendingSideMission with
              | none => rfl
              | some d => exact absurd (Or.inr (by simp [hp])) hopts
            have hpos : 0 < s.roundsCompleted := by
              have : s.roundsCompleted ≠ 0 := by simpa using h3
              omega
            have hmod : s.roundsCompleted % 15 = 0 := by
              have := h4
              simp [SIDE_MISSION_INTERVAL] at this
              exact this
            exact ⟨hen, hpend, hact, hpos, hmod⟩

/-- Witness for C5: the invariant at the initial state, and the
scheduling conditions read off at a concrete state with 15 completed
rounds and empty mission slots. -/
theorem side_mission_exclusivity_witness :
    ((⟨0, none, none, true⟩ : MissionSchedState).pendingSideMission = none ∨
      (⟨0, none, none, true⟩ : MissionSchedState).activeSideMission = none) ∧
    ((⟨15, none, none, true⟩ : MissionSchedState).sideMissionsEnabled = true ∧
      (⟨15, none, none, true⟩ : MissionSchedState).pendingSideMission = none ∧
      (⟨15, none, none, true⟩ : MissionSchedState).activeSideMission = none ∧
      0 < (⟨15, none, none, true⟩ : MissionSchedState).roundsCompleted ∧
      (⟨15, none, none, true⟩ : MissionSchedState).roundsCompleted % 15 = 0) :=
  ⟨side_mission_exclusivity.1 _ (MissionReachable.init true),
   side_mission_exclusivity.2 ⟨15, none, none, true⟩ doubleOrNothingDef
     (by simp [maybeScheduleSideMission, SIDE_MISSION_INTERVAL])⟩

end CardGame

namespace CardGame

/-- ASCII whitespace removed by Python `str.strip()`. -/
def pyIsSpace (c : Char) : Bool :=
  c = ' ' || c = '\t' || c = '\n' || c = '\r' || c = '\x0b' || c = '\x0c'

/-- `str.strip()` on a character list: drop whitespace from both ends. -/
def pyStrip (s : List Char) : List Char :=
  ((s.dropWhile pyIsSpace).reverse.dropWhile pyIsSpace).reverse

/-- `str.lower()` (ASCII letters). -/
def pyLower (s : List Char) : List Char :=
  s.map Char.toLower

/-- Inner `for j` loop of `Prediction._levenshtein`: walk the characters
of `b` alongside adjacent entries of the previous row, carrying the value
just appended to the current row. -/
def levRowAux (aChar : Char) : List Char → List Nat → Nat → List Nat
  | [], _, _ => []
  | _ :: _, [], _ => []
  | bChar :: bRest, pPrev :: pRest, last =>
    let pj := pRest.headD 0
    let v := Nat.min (last + 1)
      (Nat.min (pj + 1) (pPrev + (if aChar = bChar then 0 else 1)))
    v :: levRowAux aChar bRest pRest v

/-- Outer `for i` loop of `Prediction._levenshtein`: build one row per
character of `a`, starting each row with the row index. -/
def levRows : List Char → List Char → List Nat → Nat → List Nat
  | [], _, prev, _ => prev
  | aChar :: aRest, b, prev, i =>
    levRows aRest b (i :: levRowAux aChar b prev i) (i + 1)

/-- `Prediction._levenshtein`: dynamic-programming edit distance with the
three early returns of the source. -/
def levenshtein (a b : List Char) : Nat :=
  if a = b then 0
  else if a = [] then b.length
  else if b = [] then a.length
  else (levRows a b (List.range (b.length + 1)) 1).getLastD 0

/-- The `aliases` dict of `Prediction.input_from_player` as a lookup. -/
def aliasLookup (w : List Char) : Option Prediction :=
  if w = "h".toList then some .HIGHER
  else if w = "hi".toList then some .HIGHER
  else if w = "high".toList then some .HIGHER
  else if w = "higher".toList then some .HIGHER
  else if w = "l".toList then some .LOWER
  else if w = "lo".toList then some .LOWER
  else if w = "low".toList then some .LOWER
  else if w = "lower".toList then some .LOWER
  else none

/-- `fuzzy_targets` of `Prediction._fuzzy_match`. -/
def fuzzyTargets : List (List Char) :=
  ["high".toList, "higher".toList, "low".toList, "lower".toList]

/-- `Prediction._fuzzy_match`: the first canonical word within edit
distance `max_distance = 1` of the input, if any. -/
def fuzzyMatch (word : List Char) : Option (List Char) :=
  fuzzyTargets.find? (fun target => decide (levenshtein word target ≤ 1))

/-- Error message of `InvalidPredictionError`. -/
def invalidPredictionMsg : String :=
  "Invalid prediction. Use higher (h) or lower (l)."

/-- `Prediction.input_from_player` after normalisation: alias lookup
first, then the fuzzy match (whose result is itself looked up in the
alias table; that second lookup cannot fail since every fuzzy target is
an alias key), otherwise the invalid-prediction error. -/
def parseNormalized (w : List Char) : Except String Prediction :=
  match aliasLookup w with
  | some p => .ok p
  | none =>
    match fuzzyMatch w with
    | some target =>
      match aliasLookup target with
      | some p => .ok p
      | none => .error invalidPredictionMsg
    | none => .error invalidPredictionMsg

/-- `Prediction.input_from_player`: `raw_prediction.strip().lower()`,
then alias/fuzzy parsing. -/
def inputFromPlayer (raw : String) : Except String Prediction :=
  parseNormalized (pyLower (pyStrip raw.toList))

/-- The alias lookup succeeds exactly on the eight literal alias
strings. -/
theorem aliasLookup_ok_iff (w : List Char) :
    (∃ p, aliasLookup w = some p) ↔
      (w = "h".toList ∨ w = "hi".toList ∨ w = "high".toList ∨
       w = "higher".toList ∨ w = "l".toList ∨ w = "lo".toList ∨
       w = "low".toList ∨ w = "lower".toList) := by
  unfold aliasLookup
  split_ifs with h1 h2 h3 h4 h5 h6 h7 h8 <;> simp_all

/-- Every fuzzy target is an alias key. -/
theorem fuzzyTarget_alias (t : List Char) (ht : t ∈ fuzzyTargets) :
    ∃ p, aliasLookup t = some p := by
  simp only [fuzzyTargets, List.mem_cons, List.not_mem_nil, or_false] at ht
  rcases ht with rfl | rfl | rfl | rfl
  · exact ⟨.HIGHER, by decide⟩
  · exact ⟨.HIGHER, by decide⟩
  · exact ⟨.LOWER, by decide⟩
  · exact ⟨.LOWER, by decide⟩

/-- The fuzzy match succeeds exactly when some canonical word is within
Levenshtein distance 1. -/
theorem fuzzyMatch_ok_iff (w : List Char) :
    (∃ t, fuzzyMatch w = some t) ↔
      (levenshtein w ("high".toList) ≤ 1 ∨
       levenshtein w ("higher".toList) ≤ 1 ∨
       levenshtein w ("low".toList) ≤ 1 ∨
       levenshtein w ("lower".toList) ≤ 1) := by
  rw [← Option.isSome_iff_exists]
  unfold fuzzyMatch
  rw [List.find?_isSome]
  simp [fuzzyTargets]

/-- A fuzzy result is a member of the target list. -/
theorem fuzzyMatch_mem (w t : List Char) (h : fuzzyMatch w = some t) :
    t ∈ fuzzyTargets :=
  List.mem_of_find?_eq_some h

/-- Success condition of the normalised parse. -/
theorem parseNormalized_ok_iff (w : List Char) :
    (∃ p, parseNormalized w = .ok p) ↔
      (w = "h".toList ∨ w = "hi".toList ∨ w = "high".toList ∨
       w = "higher".toList ∨ w = "l".toList ∨ w = "lo".toList ∨
       w = "low".toList ∨ w = "lower".toList ∨
       levenshtein w ("high".toList) ≤ 1 ∨
       levenshtein w ("higher".toList) ≤ 1 ∨
       levenshtein w ("low".toList) ≤ 1 ∨
       levenshtein w ("lower".toList) ≤ 1) := by
  cases hA : aliasLookup w with
  | some p =>
    have hok : w = "h".toList ∨ w = "hi".toList ∨ w = "high".toList ∨
        w = "higher".toList ∨ w = "l".toList ∨ w = "lo".toList ∨
        w = "low".toList ∨ w = "lower".toList :=
      (aliasLookup_ok_iff w).mp ⟨p, hA⟩
    have hres : parseNormalized w = .ok p := by
      unfold parseNormalized
      rw [hA]
    constructor
    · intro _
      tauto
    · intro _
      exact ⟨p, hres⟩
  | none =>
    have hnoal : ¬(w = "h".toList ∨ w = "hi".toList ∨ w = "high".toList ∨
        w = "higher".toList ∨ w = "l".toList ∨ w = "lo".toList ∨
        w = "low".toList ∨ w = "lower".toList) := by
      intro hmem
      obtain ⟨p, hp⟩ := (aliasLookup_ok_iff w).mpr hmem
      rw [hA] at hp
      exact Option.noConfusion hp
    cases hF : fuzzyMatch w with
    | some t =>
      obtain ⟨p, hp⟩ := fuzzyTarget_alias t (fuzzyMatch_mem w t hF)
      have hres : parseNormalized w = .ok p := by
        unfold parseNormalized
        rw [hA, hF]
        dsimp only
        rw [hp]
      have hfz : levenshtein w ("high".toList) ≤ 1 ∨
          levenshtein w ("higher".toList) ≤ 1 ∨
          levenshtein w ("low".toList) ≤ 1 ∨
          levenshtein w ("lower".toList) ≤ 1 :=
        (fuzzyMatch_ok_iff w).mp ⟨t, hF⟩
      constructor
      · intro _
        tauto
      · intro _
        exact ⟨p, hres⟩
    | none =>
      have hnofz : ¬(levenshtein w ("high".toList) ≤ 1 ∨
          levenshtein w ("higher".toList) ≤ 1 ∨
          levenshtein w ("low".toList) ≤ 1 ∨
          levenshtein w ("lower".toList) ≤ 1) := by
        intro hcond
        obtain ⟨t, ht⟩ := (fuzzyMatch_ok_iff w).mpr hcond
        rw [hF] at ht
        exact Option.noConfusion ht
      have hres : parseNormalized w = .error invalidPredictionMsg := by
        unfold parseNormalized
        rw [hA, hF]
      constructor
      · rintro ⟨p, hp⟩
        rw [hres] at hp
        exact Except.noConfusion hp
      · intro hcond
        exact absurd hcond (by tauto)

/-- A failed parse reports the invalid-prediction error. -/
theorem parseNormalized_error (w : List Char)
    (h : ¬∃ p, parseNormalized w = .ok p) :
    parseNormalized w = .error invalidPredictionMsg := by
  cases hA : aliasLookup w with
  | some p =>
    exact absurd ⟨p, by unfold parseNormalized; rw [hA]⟩ h
  | none =>
    cases hF : fuzzyMatch w with
    | some t =>
      obtain ⟨p, hp⟩ := fuzzyTarget_alias t (fuzzyMatch_mem w t hF)
      exact absurd
        ⟨p, by unfold parseNormalized; rw [hA, hF]; dsimp only; rw [hp]⟩ h
    | none =>
      unfold parseNormalized
      rw [hA, hF]

end CardGame

namespace CardGame

/-- C7: prediction parsing returns HIGHER or LOWER exactly when the
trimmed, lower-cased input is one of the eight literal aliases or is
within Levenshtein distance 1 of one of the canonical words `high`,
`higher`, `low`, `lower`; every other input yields the invalid-prediction
error, never a default prediction. -/
theorem prediction_parsing_spec (raw : String) :
    ((∃ p, inputFromPlayer raw = .ok p) ↔
      (pyLower (pyStrip raw.toList) = "h".toList ∨
       pyLower (pyStrip raw.toList) = "hi".toList ∨
       pyLower (pyStrip raw.toList) = "high".toList ∨
       pyLower (pyStrip raw.toList) = "higher".toList ∨
       pyLower (pyStrip raw.toList) = "l".toList ∨
       pyLower (pyStrip raw.toList) = "lo".toList ∨
       pyLower (pyStrip raw.toList) = "low".toList ∨
       pyLower (pyStrip raw.toList) = "lower".toList ∨
       levenshtein (pyLower (pyStrip raw.toList)) ("high".toList) ≤ 1 ∨
       levenshtein (pyLower (pyStrip raw.toList)) ("higher".toList) ≤ 1 ∨
       levenshtein (pyLower (pyStrip raw.toList)) ("low".toList) ≤ 1 ∨
       levenshtein (pyLower (pyStrip raw.toList)) ("lower".toList) ≤ 1)) ∧
    (¬(pyLower (pyStrip raw.toList) = "h".toList ∨
       pyLower (pyStrip raw.toList) = "hi".toList ∨
       pyLower (pyStrip raw.toList) = "high".toList ∨
       pyLower (pyStrip raw.toList) = "higher".toList ∨
       pyLower (pyStrip raw.toList) = "l".toList ∨
       pyLower (pyStrip raw.toList) = "lo".toList ∨
       pyLower (pyStrip raw.toList) = "low".toList ∨
       pyLower (pyStrip raw.toList) = "lower".toList ∨
       levenshtein (pyLower (pyStrip raw.toList)) ("high".toList) ≤ 1 ∨
       levenshtein (pyLower (pyStrip raw.toList)) ("higher".toList) ≤ 1 ∨
       levenshtein (pyLower (pyStrip raw.toList)) ("low".toList) ≤ 1 ∨
       levenshtein (pyLower (pyStrip raw.toList)) ("lower".toList) ≤ 1) →
      inputFromPlayer raw = .error invalidPredictionMsg) := by
  constructor
  · exact parseNormalized_ok_iff (pyLower (pyStrip raw.toList))
  · intro h
    exact parseNormalized_error (pyLower (pyStrip raw.toList))
      (fun hex =>
        h ((parseNormalized_ok_iff (pyLower (pyStrip raw.toList))).mp hex))

set_option maxRecDepth 4000 in
/-- Witness for C7: a nonsense input is rejected with the
invalid-prediction error. -/
theorem prediction_parsing_spec_witness :
    inputFromPlayer "Hawkeye is my dream job!" = .error invalidPredictionMsg :=
  (prediction_parsing_spec "Hawkeye is my dream job!").2 (by decide)

end CardGame
